/-
Verification of the `animation` repository's natural-language specification
against its Python source, via a shallow embedding in Lean 4.

Python strings are embedded as `List Char`; Python floats are idealised as
exact rationals (`ℚ`); Python `str.split()` / `str.strip()` whitespace is
modelled by `Char.isWhitespace` (the four ASCII whitespace characters, which
covers every string the claims mention).  Fallible code returns `Except` /
`Option`.  Each embedded definition carries the name of the Python function
it is translated from.
-/
import Mathlib

namespace Animation

/-- Convert a Lean string literal into the `List Char` representation used
for embedded Python strings. -/
def str (s : String) : List Char := s.data

/-! ## Embedding of `src/agents/script_segmenter.py` -/

/-- A scene segment dictionary, as produced by `ScriptSegmentationAgent`.
`duration_seconds` is `Option`al because the Python code reads it with
`seg.get("duration_seconds", 5.0)`. -/
structure SceneSegment where
  scene_number : ℕ
  description : List Char
  characters : List (List Char)
  narration : List Char
  duration_seconds : Option ℚ
  setting : List Char
  scene_background : List Char
  emotions : List (List Char)
  deriving Repr, DecidableEq

/-- Python `seg.get("duration_seconds", 5.0)`. -/
def SceneSegment.getDuration (seg : SceneSegment) : ℚ :=
  seg.duration_seconds.getD 5

/-- Embeds `ScriptSegmentationAgent._validate_durations`
(src/agents/script_segmenter.py, lines 512–547): if the total duration is
within 10 seconds of `target_duration_minutes * 60` the segments are returned
as is; otherwise every duration is multiplied by `target / total` (factor 1.0
when the total is 0) and clamped to the 4.0–8.0 band. -/
def validate_durations (segments : List SceneSegment)
    (target_duration_minutes : ℕ) : List SceneSegment :=
  let target_duration_seconds : ℚ := target_duration_minutes * 60
  let total_duration : ℚ := (segments.map (·.getDuration)).sum
  if |total_duration - target_duration_seconds| < 10 then
    segments
  else
    let scale_factor : ℚ :=
      if total_duration > 0 then target_duration_seconds / total_duration else 1
    segments.map (fun seg =>
      { seg with duration_seconds := some (max 4 (min 8 (seg.getDuration * scale_factor))) })

/-- A segment carrying only a duration, for building concrete test inputs. -/
def mkSeg (d : ℚ) : SceneSegment :=
  { scene_number := 1, description := [], characters := [], narration := [],
    duration_seconds := some d, setting := [], scene_background := [],
    emotions := [] }

@[simp]
lemma getDuration_set (s : SceneSegment) (v : ℚ) :
    ({ s with duration_seconds := some v } : SceneSegment).getDuration = v := rfl

/-- C2 (counterexample): with segment durations 100 and 15 and a 2-minute
target, the unscaled total (115) is within 10 seconds of the target (120),
so `_validate_durations` returns the segments unchanged and the duration 100
escapes the 4.0–8.0 band — the invariant does not hold for all inputs. -/
theorem C2_duration_invariant_counterexample :
    validate_durations [mkSeg 100, mkSeg 15] 2 = [mkSeg 100, mkSeg 15] ∧
      ¬ (∀ seg ∈ validate_durations [mkSeg 100, mkSeg 15] 2,
            4 ≤ seg.getDuration ∧ seg.getDuration ≤ 8) := by
  have h : validate_durations [mkSeg 100, mkSeg 15] 2 = [mkSeg 100, mkSeg 15] := by
    norm_num [validate_durations, mkSeg, SceneSegment.getDuration]
  refine ⟨h, fun hall => ?_⟩
  have h100 := (hall (mkSeg 100) (by rw [h]; exact List.mem_cons_self _ _)).2
  norm_num [mkSeg, SceneSegment.getDuration] at h100

/-- C2 (amended): after `_validate_durations`, every segment duration lies in
the 4.0–8.0 band whenever the rescale branch runs (unscaled total at least 10
seconds away from the target); when the total is already within 10 seconds of
the target the segments are returned unchanged, durations included. -/
theorem C2_durations_after_validation (segments : List SceneSegment)
    (target : ℕ) :
    (¬ |(segments.map (·.getDuration)).sum - (target : ℚ) * 60| < 10 →
        ∀ seg ∈ validate_durations segments target,
          4 ≤ seg.getDuration ∧ seg.getDuration ≤ 8) ∧
      (|(segments.map (·.getDuration)).sum - (target : ℚ) * 60| < 10 →
        validate_durations segments target = segments) := by
  constructor
  · intro h seg hseg
    simp only [validate_durations] at hseg
    rw [if_neg h] at hseg
    simp only [List.mem_map] at hseg
    obtain ⟨s, -, rfl⟩ := hseg
    refine ⟨le_max_left _ _, max_le (by norm_num) (min_le_left _ _)⟩
  · intro h
    simp only [validate_durations]
    rw [if_pos h]

/-- C2 (witness): both branches of the amended statement at concrete inputs. -/
theorem C2_durations_after_validation_witness :
    (∀ seg ∈ validate_durations [mkSeg 5, mkSeg 5] 1,
        4 ≤ seg.getDuration ∧ seg.getDuration ≤ 8) ∧
      validate_durations [mkSeg 6] 0 = [mkSeg 6] :=
  ⟨(C2_durations_after_validation [mkSeg 5, mkSeg 5] 1).1
      (by norm_num [mkSeg, SceneSegment.getDuration]),
   (C2_durations_after_validation [mkSeg 6] 0).2
      (by norm_num [mkSeg, SceneSegment.getDuration])⟩

/-- C3: five segments of 5.0 seconds each against a 3-minute target: the
total 25 is rescaled by 180/25 = 7.2 (5.0 ↦ 36.0) and clamped to 8.0, so
every output duration is exactly 8.0 and the segment count stays 5. -/
theorem C3_validate_durations_five_segments :
    (validate_durations [mkSeg 5, mkSeg 5, mkSeg 5, mkSeg 5, mkSeg 5] 3).map
        SceneSegment.getDuration = [8, 8, 8, 8, 8] ∧
      (validate_durations [mkSeg 5, mkSeg 5, mkSeg 5, mkSeg 5, mkSeg 5] 3).length
        = 5 := by
  constructor
  · norm_num [validate_durations, mkSeg, SceneSegment.getDuration]
  · norm_num [validate_durations, mkSeg, SceneSegment.getDuration]

/-! ### `_validate_story_coverage` (src/agents/script_segmenter.py, 549–623)

Python `str.split()` (split on whitespace runs, dropping empty chunks) is
embedded by `pyWords`; `str.lower()` by mapping `Char.toLower`;
`" ".join(...)` by `List.intercalate (str " ")`; Python `set` intersection
cardinality by counting deduplicated words. -/

/-- Worker for `pyWords`: walks the characters, accumulating the current word
(reversed) and emitting it at each whitespace boundary. -/
def pyWordsAux : List Char → List Char → List (List Char)
  | [], acc => if acc = [] then [] else [acc.reverse]
  | c :: cs, acc =>
    if c.isWhitespace then
      (if acc = [] then pyWordsAux cs [] else acc.reverse :: pyWordsAux cs [])
    else pyWordsAux cs (c :: acc)

/-- Python `s.split()`: the maximal whitespace-free runs of `s`, in order. -/
def pyWords (s : List Char) : List (List Char) := pyWordsAux s []

/-- Python `s.lower()`. -/
def lower (s : List Char) : List Char := s.map Char.toLower

/-- Python `" ".join(seg.get("narration", "") for seg in segments)`. -/
def combinedNarration (segments : List SceneSegment) : List Char :=
  List.intercalate (str " ") (segments.map (·.narration))

/-- Python `set(original_story.lower().split())`, as a duplicate-free word list. -/
def storyWords (story : List Char) : List (List Char) :=
  (pyWords (lower story)).dedup

/-- Python `set(combined_narration.lower().split())`, as a duplicate-free word list. -/
def narrationWords (segments : List SceneSegment) : List (List Char) :=
  (pyWords (lower (combinedNarration segments))).dedup

/-- Python `len(story_words & narration_words)`. -/
def coverageNum (segments : List SceneSegment) (story : List Char) : ℕ :=
  ((storyWords story).filter (· ∈ narrationWords segments)).length

/-- The ratio `coverage = len(story_words & narration_words) / len(story_words)`
(0 when the story has no words, matching the `len(story_words) == 0` guard
via rational division by zero). -/
def storyCoverage (segments : List SceneSegment) (story : List Char) : ℚ :=
  (coverageNum segments story : ℚ) / ((storyWords story).length : ℚ)

/-- The ratio `char_ratio = narration_chars / story_chars` (0 when the story is empty,
matching the `if story_chars > 0 else 0` guard via division by zero). -/
def narrationCharRatio (segments : List SceneSegment) (story : List Char) : ℚ :=
  ((combinedNarration segments).length : ℚ) / (story.length : ℚ)

/-- Embeds `ScriptSegmentationAgent._validate_story_coverage`
(src/agents/script_segmenter.py, lines 549–623): reject when the combined
narration is blank, when the story has no words, when word coverage is below
0.85, or when the character ratio is below 0.75; accept otherwise. -/
def validate_story_coverage (segments : List SceneSegment)
    (original_story : List Char) : Bool :=
  let combined_narration := combinedNarration segments
  if combined_narration.all (·.isWhitespace) then false
  else if (storyWords original_story).length = 0 then false
  else
    let coverage : ℚ := storyCoverage segments original_story
    let char_ratio : ℚ :=
      if 0 < original_story.length then
        ((combined_narration.length : ℚ) / (original_story.length : ℚ))
      else 0
    if coverage < 85 / 100 then false
    else if char_ratio < 75 / 100 then false
    else true

/-- A segment carrying only a narration, for building concrete test inputs. -/
def mkNarrSeg (s : String) : SceneSegment :=
  { scene_number := 1, description := [], characters := [], narration := str s,
    duration_seconds := none, setting := [], scene_background := [],
    emotions := [] }

lemma toLower_of_isWhitespace {c : Char} (h : c.isWhitespace = true) :
    c.toLower = c := by
  simp only [Char.isWhitespace, Bool.or_eq_true, decide_eq_true_eq] at h
  rcases h with ((h | h) | h) | h <;> subst h <;> decide

lemma pyWordsAux_eq_nil {s : List Char}
    (h : ∀ c ∈ s, c.isWhitespace = true) : pyWordsAux s [] = [] := by
  induction s with
  | nil => rfl
  | cons c cs ih =>
    have hc : c.isWhitespace = true := h c (List.mem_cons_self _ _)
    simp only [pyWordsAux, hc, if_true, if_pos rfl]
    exact ih fun d hd => h d (List.mem_cons_of_mem _ hd)

lemma narrationWords_eq_nil {segments : List SceneSegment}
    (h : (combinedNarration segments).all (·.isWhitespace) = true) :
    narrationWords segments = [] := by
  have hall : ∀ c ∈ combinedNarration segments, c.isWhitespace = true := by
    simpa [List.all_eq_true] using h
  have hlow : ∀ c ∈ lower (combinedNarration segments), c.isWhitespace = true := by
    intro c hc
    rcases List.mem_map.mp hc with ⟨d, hd, rfl⟩
    rw [toLower_of_isWhitespace (hall d hd)]
    exact hall d hd
  unfold narrationWords pyWords
  rw [pyWordsAux_eq_nil hlow]
  rfl

lemma storyCoverage_eq_zero_of_blank {segments : List SceneSegment}
    {story : List Char}
    (h : (combinedNarration segments).all (·.isWhitespace) = true) :
    storyCoverage segments story = 0 := by
  have hnum : coverageNum segments story = 0 := by
    unfold coverageNum
    rw [narrationWords_eq_nil h]
    simp
  rw [storyCoverage, hnum]
  simp

lemma validate_story_coverage_iff (segments : List SceneSegment)
    (story : List Char) :
    validate_story_coverage segments story = true ↔
      (85 / 100 : ℚ) ≤ storyCoverage segments story ∧
        (75 / 100 : ℚ) ≤ narrationCharRatio segments story := by
  have hratio : (if 0 < story.length then
      (((combinedNarration segments).length : ℚ) / (story.length : ℚ)) else 0)
      = narrationCharRatio segments story := by
    split_ifs with h
    · rfl
    · have h0 : story.length = 0 := by omega
      rw [narrationCharRatio, h0]
      simp
  simp only [validate_story_coverage]
  rw [hratio]
  split_ifs with h1 h2 h3 h4
  · simp only [false_iff]
    rintro ⟨hc, -⟩
    rw [storyCoverage_eq_zero_of_blank h1] at hc
    norm_num at hc
  · simp only [false_iff]
    rintro ⟨hc, -⟩
    have hz : storyCoverage segments story = 0 := by
      rw [storyCoverage, h2]
      simp
    rw [hz] at hc
    norm_num at hc
  · simp only [false_iff]
    rintro ⟨hc, -⟩
    exact absurd hc (not_le.mpr h3)
  · simp only [false_iff]
    rintro ⟨-, hr⟩
    exact absurd hr (not_le.mpr h4)
  · simp only [true_iff]
    exact ⟨not_lt.mp h3, not_lt.mp h4⟩

/-- C1: `_validate_story_coverage` accepts a segment set iff the unique-word
coverage of the story by the concatenated narrations is at least 0.85 and the
narration-to-story character ratio is at least 0.75 (ratios taken as exact
rationals, with value 0 when the story has no words or no characters); on the
three concrete inputs of the spec it returns true, false and false. -/
theorem C1_validate_story_coverage :
    (∀ (segments : List SceneSegment) (story : List Char),
        validate_story_coverage segments story = true ↔
          (85 / 100 : ℚ) ≤ storyCoverage segments story ∧
            (75 / 100 : ℚ) ≤ narrationCharRatio segments story) ∧
      validate_story_coverage
          [mkNarrSeg "Sentence A. Sentence B.", mkNarrSeg "Sentence C. Sentence D."]
          (str "Sentence A. Sentence B. Sentence C. Sentence D.") = true ∧
      validate_story_coverage
          [mkNarrSeg "Something completely different.", mkNarrSeg "Not related at all."]
          (str "Sentence A. Sentence B. Sentence C. Sentence D.") = false ∧
      validate_story_coverage [mkNarrSeg "", mkNarrSeg ""]
          (str "Sentence A. Sentence B. Sentence C. Sentence D.") = false := by
  refine ⟨validate_story_coverage_iff, ?_, ?_, ?_⟩
  · apply (validate_story_coverage_iff _ _).mpr
    constructor
    · have hnum : coverageNum
          [mkNarrSeg "Sentence A. Sentence B.", mkNarrSeg "Sentence C. Sentence D."]
          (str "Sentence A. Sentence B. Sentence C. Sentence D.") = 5 := by decide
      have hlen : (storyWords
          (str "Sentence A. Sentence B. Sentence C. Sentence D.")).length = 5 := by
        decide
      rw [storyCoverage, hnum, hlen]
      norm_num
    · have hn : (combinedNarration
          [mkNarrSeg "Sentence A. Sentence B.", mkNarrSeg "Sentence C. Sentence D."]).length
          = 47 := by decide
      have hs : (str "Sentence A. Sentence B. Sentence C. Sentence D.").length = 47 := by
        decide
      rw [narrationCharRatio, hn, hs]
      norm_num
  · cases hb : validate_story_coverage
        [mkNarrSeg "Something completely different.", mkNarrSeg "Not related at all."]
        (str "Sentence A. Sentence B. Sentence C. Sentence D.") with
    | false => rfl
    | true =>
      exfalso
      have hc := ((validate_story_coverage_iff _ _).mp hb).1
      have hnum : coverageNum
          [mkNarrSeg "Something completely different.", mkNarrSeg "Not related at all."]
          (str "Sentence A. Sentence B. Sentence C. Sentence D.") = 0 := by decide
      rw [storyCoverage, hnum] at hc
      norm_num at hc
  · decide

/-! ### `_fallback_segmentation` (src/agents/script_segmenter.py, 625–670) -/

/-- Python `story.split("\n\n")`: non-overlapping left-to-right split on the
two-character separator, keeping empty chunks. -/
def splitPar : List Char → List Char → List (List Char)
  | [], acc => [acc.reverse]
  | '\n' :: '\n' :: rest, acc => acc.reverse :: splitPar rest []
  | c :: rest, acc => splitPar rest (c :: acc)

/-- Python `s.strip()`. -/
def stripChars (s : List Char) : List Char :=
  ((s.dropWhile (·.isWhitespace)).reverse.dropWhile (·.isWhitespace)).reverse

/-- Python `[p.strip() for p in story.split("\n\n") if p.strip()]`. -/
def storyParagraphs (story : List Char) : List (List Char) :=
  ((splitPar story []).map stripChars).filter (· ≠ [])

/-- Python `enumerate(l, i)`. -/
def enumFrom1 : ℕ → List α → List (ℕ × α)
  | _, [] => []
  | i, x :: xs => (i, x) :: enumFrom1 (i + 1) xs

/-- Embeds `ScriptSegmentationAgent._fallback_segmentation`
(src/agents/script_segmenter.py, lines 625–670).  The character names and the
setting extracted from the context dictionary are passed directly; the
`dialogue: None` field is dropped because no claim depends on it.  Durations
use exact rational division (the Python code divides by `num_segments`, which
is positive whenever there is at least one paragraph). -/
def fallback_segmentation (story : List Char) (characters : List (List Char))
    (setting : List Char) (target_duration_minutes : ℕ) : List SceneSegment :=
  let paragraphs := storyParagraphs story
  let num_segments := min paragraphs.length 10
  let duration_raw : ℚ := (target_duration_minutes * 60 : ℚ) / (num_segments : ℚ)
  let duration_per_segment : ℚ := max 4 (min 8 duration_raw)
  (enumFrom1 1 (paragraphs.take num_segments)).map (fun ip =>
    { scene_number := ip.1,
      description := ip.2.take 200,
      characters := if characters = [] then [] else characters.take 2,
      narration := ip.2,
      duration_seconds := some duration_per_segment,
      setting := setting,
      scene_background := setting ++
        str ". The scene has a neutral atmosphere with natural lighting. A calm and peaceful environment.",
      emotions := [str "neutral"] })

lemma enumFrom1_map_snd : ∀ (i : ℕ) (l : List α),
    (enumFrom1 i l).map Prod.snd = l
  | _, [] => rfl
  | i, x :: xs => by
    simp only [enumFrom1, List.map_cons, List.cons.injEq, true_and]
    exact enumFrom1_map_snd (i + 1) xs

lemma enumFrom1_length : ∀ (i : ℕ) (l : List α),
    (enumFrom1 i l).length = l.length
  | _, [] => rfl
  | i, x :: xs => by
    simp only [enumFrom1, List.length_cons]
    rw [enumFrom1_length (i + 1) xs]

/-- C10: when the story splits into more than 10 non-blank paragraphs,
`_fallback_segmentation` produces exactly 10 segments whose narrations are the
first 10 paragraphs in order, so the narration list drops every later
paragraph and does not reproduce the full paragraph decomposition of the
story. -/
theorem C10_fallback_caps_at_ten (story : List Char)
    (characters : List (List Char)) (setting : List Char) (target : ℕ)
    (h : 10 < (storyParagraphs story).length) :
    (fallback_segmentation story characters setting target).length = 10 ∧
      (fallback_segmentation story characters setting target).map
          SceneSegment.narration = (storyParagraphs story).take 10 ∧
      (fallback_segmentation story characters setting target).map
          SceneSegment.narration ≠ storyParagraphs story := by
  have hmin : min (storyParagraphs story).length 10 = 10 :=
    min_eq_right (le_of_lt h)
  have hnarr : (fallback_segmentation story characters setting target).map
      SceneSegment.narration = (storyParagraphs story).take 10 := by
    simp only [fallback_segmentation, hmin, List.map_map]
    have : (SceneSegment.narration ∘ fun ip : ℕ × List Char =>
        ({ scene_number := ip.1,
           description := ip.2.take 200,
           characters := if characters = [] then [] else characters.take 2,
           narration := ip.2,
           duration_seconds := some (max 4 (min 8
             ((target * 60 : ℚ) / ((10 : ℕ) : ℚ)))),
           setting := setting,
           scene_background := setting ++
             str ". The scene has a neutral atmosphere with natural lighting. A calm and peaceful environment.",
           emotions := [str "neutral"] } : SceneSegment)) = Prod.snd := rfl
    rw [this, enumFrom1_map_snd]
  refine ⟨?_, hnarr, ?_⟩
  · simp only [fallback_segmentation, hmin, List.length_map, enumFrom1_length,
      List.length_take]
    exact min_eq_left (le_of_lt h)
  · intro heq
    have hlen := congrArg List.length (hnarr ▸ heq)
    rw [List.length_take, min_eq_left (le_of_lt h)] at hlen
    omega

/-- C10 (witness): a story of 11 one-letter paragraphs. -/
theorem C10_fallback_caps_at_ten_witness :
    (fallback_segmentation
        (str "a\n\nb\n\nc\n\nd\n\ne\n\nf\n\ng\n\nh\n\ni\n\nj\n\nk")
        [] [] 1).length = 10 :=
  (C10_fallback_caps_at_ten
      (str "a\n\nb\n\nc\n\nd\n\ne\n\nf\n\ng\n\nh\n\ni\n\nj\n\nk")
      [] [] 1 (by decide)).1

/-! ## Embedding of `src/utils/validators.py` -/

/-- Dynamically typed Python values, as far as `validate_input` inspects
them: strings, integers, lists, string-keyed dictionaries and `None`.
(Python's `bool` is left out; no claim exercises the `isinstance(x, int)`
corner where it would matter.) -/
inductive PyVal where
  | vstr (s : List Char)
  | vint (n : ℤ)
  | vlist (l : List PyVal)
  | vdict (d : List (String × PyVal))
  | vnone

/-- Dictionary lookup on the association-list representation. -/
def lookupKey (d : List (String × PyVal)) (k : String) : Option PyVal :=
  match d with
  | [] => none
  | (k', v) :: rest => if k' = k then some v else lookupKey rest k

/-- The `required_fields` list of `validate_input`. -/
def requiredFields : List String :=
  ["topic", "theme", "characters", "setting", "moral_lesson", "age_group"]

/-- The `for field in required_fields: if field not in context` loop: the
first required field missing from the context, if any. -/
def firstMissing (ctx : List (String × PyVal)) : List String → Option String
  | [] => none
  | f :: fs => if (lookupKey ctx f).isSome then firstMissing ctx fs else some f

/-- Python `isinstance(v, str) and v.strip()`: a string that is non-empty after
stripping. -/
def isNonEmptyStr (v : PyVal) : Bool :=
  match v with
  | .vstr s => !(stripChars s).isEmpty
  | _ => false

/-- The character-entry loop of `validate_input`: each entry must be a
dictionary holding both a `name` and a `type` key. -/
def checkCharacters : ℕ → List PyVal → Option String
  | _, [] => none
  | i, c :: cs =>
    match c with
    | .vdict d =>
      if (lookupKey d "name").isSome && (lookupKey d "type").isSome then
        checkCharacters (i + 1) cs
      else some ("Character " ++ toString i ++ " must have 'name' and 'type' fields")
    | _ => some ("Character " ++ toString i ++ " must be a dictionary")

/-- The trailing `preferences` check of `validate_input`. -/
def checkPreferences (inputD : List (String × PyVal)) :
    Bool × Option String :=
  match lookupKey inputD "preferences" with
  | some (.vdict _) => (true, none)
  | some _ => (false, some "Preferences must be a dictionary")
  | none => (true, none)

/-- Embeds `validate_input` (src/utils/validators.py, lines 17–91).  The
`age_group` value check is commented out in the source, so only the key's
presence matters.  A context value that is not a dictionary would make the
Python `field not in context` test behave type-dependently; that case is
embedded as `Except.error` and no claim touches it. -/
def validate_input (input_data : PyVal) :
    Except String (Bool × Option String) :=
  match input_data with
  | .vdict inputD =>
    match lookupKey inputD "context" with
    | none => .ok (false, some "Missing 'context' key in input")
    | some (.vdict ctx) =>
      match firstMissing ctx requiredFields with
      | some f =>
        .ok (false, some ("Missing required field in context: " ++ f))
      | none =>
        if !(isNonEmptyStr ((lookupKey ctx "topic").getD .vnone)) then
          .ok (false, some "Topic must be a non-empty string")
        else if !(isNonEmptyStr ((lookupKey ctx "theme").getD .vnone)) then
          .ok (false, some "Theme must be a non-empty string")
        else
          match lookupKey ctx "characters" with
          | some (.vlist chars) =>
            if chars.isEmpty then
              .ok (false, some "Characters must be a non-empty list")
            else
              match checkCharacters 0 chars with
              | some msg => .ok (false, some msg)
              | none =>
                if !(isNonEmptyStr ((lookupKey ctx "setting").getD .vnone)) then
                  .ok (false, some "Setting must be a non-empty string")
                else if !(isNonEmptyStr
                    ((lookupKey ctx "moral_lesson").getD .vnone)) then
                  .ok (false, some "Moral lesson must be a non-empty string")
                else
                  match lookupKey ctx "duration_minutes" with
                  | none => .ok (checkPreferences inputD)
                  | some (.vint n) =>
                    if n < 1 ∨ 10 < n then
                      .ok (false, some
                        "Duration must be an integer between 1 and 10 minutes")
                    else .ok (checkPreferences inputD)
                  | some _ =>
                    .ok (false, some
                      "Duration must be an integer between 1 and 10 minutes")
          | some _ => .ok (false, some "Characters must be a non-empty list")
          | none => .ok (false, some "Characters must be a non-empty list")
    | some _ => .error "TypeError: membership test on a non-dict context"
  | _ => .ok (false, some "Input must be a dictionary")

lemma firstMissing_eq_some {ctx : List (String × PyVal)} :
    ∀ {fs : List String} {f : String}, firstMissing ctx fs = some f →
      f ∈ fs ∧ lookupKey ctx f = none := by
  intro fs
  induction fs with
  | nil => intro f h; simp [firstMissing] at h
  | cons g gs ih =>
    intro f h
    by_cases hg : (lookupKey ctx g).isSome
    · rw [firstMissing, if_pos hg] at h
      rcases ih h with ⟨hmem, hnone⟩
      exact ⟨List.mem_cons_of_mem _ hmem, hnone⟩
    · rw [firstMissing, if_neg hg] at h
      cases h
      exact ⟨List.mem_cons_self _ _, Option.not_isSome_iff_eq_none.mp hg⟩

lemma firstMissing_isSome_of_missing {ctx : List (String × PyVal)} :
    ∀ {fs : List String} {f : String}, f ∈ fs → lookupKey ctx f = none →
      (firstMissing ctx fs).isSome := by
  intro fs
  induction fs with
  | nil => intro f h; simp at h
  | cons g gs ih =>
    intro f hmem hnone
    by_cases hg : (lookupKey ctx g).isSome
    · rw [firstMissing, if_pos hg]
      rcases List.mem_cons.mp hmem with rfl | hmem'
      · rw [hnone] at hg; simp at hg
      · exact ih hmem' hnone
    · rw [firstMissing, if_neg hg]
      rfl

/-- A context holding every required field, with a valid one-entry character
list but an empty `topic` string. -/
def exCtxEmptyTopic : List (String × PyVal) :=
  [("topic", .vstr (str "")),
   ("theme", .vstr (str "friendship")),
   ("characters", .vlist [.vdict
      [("name", .vstr (str "Bo")), ("type", .vstr (str "bear"))]]),
   ("setting", .vstr (str "forest")),
   ("moral_lesson", .vstr (str "sharing")),
   ("age_group", .vstr (str "3-5"))]

/-- C4 (counterexample): a request that contains all six required fields and
a characters list with one valid entry, yet `validate_input` rejects it —
the `topic` value is an empty string, failing the non-empty-string check, so
mere presence of the required fields does not guarantee acceptance. -/
theorem C4_validate_input_counterexample :
    (∀ f ∈ requiredFields, (lookupKey exCtxEmptyTopic f).isSome) ∧
      validate_input (.vdict [("context", .vdict exCtxEmptyTopic)]) =
        .ok (false, some "Topic must be a non-empty string") := by
  constructor
  · decide
  · rfl

/-- C4 (amended): (1) whenever the required-field scan finds a missing field
`f`, `validate_input` returns false with a message naming `f`; (2) the scan
finds one whenever any required field is missing; (3) a request whose context
has all six required fields — with non-blank strings for topic, theme,
setting and moral lesson, a characters list holding one dictionary entry with
`name` and `type` keys, any `duration_minutes` an integer in 1..10, and any
`preferences` value a dictionary — is accepted. -/
theorem C4_validate_input_amended :
    (∀ (inputD ctx : List (String × PyVal)) (f : String),
        lookupKey inputD "context" = some (.vdict ctx) →
        firstMissing ctx requiredFields = some f →
        f ∈ requiredFields ∧ lookupKey ctx f = none ∧
          validate_input (.vdict inputD) =
            .ok (false, some ("Missing required field in context: " ++ f))) ∧
      (∀ (ctx : List (String × PyVal)) (f : String),
        f ∈ requiredFields → lookupKey ctx f = none →
        (firstMissing ctx requiredFields).isSome) ∧
      (∀ (inputD ctx : List (String × PyVal)) (cd : List (String × PyVal))
          (t th se mo : List Char),
        lookupKey inputD "context" = some (.vdict ctx) →
        lookupKey ctx "topic" = some (.vstr t) → stripChars t ≠ [] →
        lookupKey ctx "theme" = some (.vstr th) → stripChars th ≠ [] →
        lookupKey ctx "characters" = some (.vlist [.vdict cd]) →
        (lookupKey cd "name").isSome → (lookupKey cd "type").isSome →
        lookupKey ctx "setting" = some (.vstr se) → stripChars se ≠ [] →
        lookupKey ctx "moral_lesson" = some (.vstr mo) → stripChars mo ≠ [] →
        (lookupKey ctx "age_group").isSome →
        (lookupKey ctx "duration_minutes" = none ∨
          ∃ n : ℤ, lookupKey ctx "duration_minutes" = some (.vint n) ∧
            1 ≤ n ∧ n ≤ 10) →
        (lookupKey inputD "preferences" = none ∨
          ∃ pd, lookupKey inputD "preferences" = some (.vdict pd)) →
        validate_input (.vdict inputD) = .ok (true, none)) := by
  refine ⟨?_, ?_, ?_⟩
  · intro inputD ctx f hctx hfm
    rcases firstMissing_eq_some hfm with ⟨hmem, hnone⟩
    refine ⟨hmem, hnone, ?_⟩
    simp only [validate_input, hctx, hfm]
  · intro ctx f hmem hnone
    exact firstMissing_isSome_of_missing hmem hnone
  · intro inputD ctx cd t th se mo hctx htop htopNE hth hthNE hch hnm hty
      hse hseNE hmo hmoNE hage hdur hpref
    have hfm : firstMissing ctx requiredFields = none := by
      simp [requiredFields, firstMissing, htop, hth, hch, hse, hmo, hage]
    have hckPref : checkPreferences inputD = (true, none) := by
      rcases hpref with h | ⟨pd, h⟩ <;> simp [checkPreferences, h]
    have hcc : checkCharacters 0 [.vdict cd] = none := by
      simp [checkCharacters, hnm, hty]
    rcases hdur with hd | ⟨n, hd, hn1, hn10⟩
    · simp [validate_input, hctx, hfm, htop, hth, hch, hse, hmo, hd, hcc,
        hckPref, isNonEmptyStr, List.isEmpty_iff, htopNE, hthNE, hseNE, hmoNE]
    · simp [validate_input, hctx, hfm, htop, hth, hch, hse, hmo, hd, hcc,
        hckPref, isNonEmptyStr, List.isEmpty_iff, htopNE, hthNE, hseNE, hmoNE]
      exact ⟨hn1, hn10⟩

/-- A fully valid context for the C4 witness. -/
def exCtxValid : List (String × PyVal) :=
  [("topic", .vstr (str "space")),
   ("theme", .vstr (str "friendship")),
   ("characters", .vlist [.vdict
      [("name", .vstr (str "Bo")), ("type", .vstr (str "bear"))]]),
   ("setting", .vstr (str "forest")),
   ("moral_lesson", .vstr (str "sharing")),
   ("age_group", .vstr (str "3-5"))]

/-- A context missing its `topic` field, for the C4 witness. -/
def exCtxNoTopic : List (String × PyVal) := exCtxValid.drop 1

/-- C4 (witness): the amended statement at concrete inputs — a context
missing `topic` is rejected with a message naming `topic`, and a fully valid
context is accepted. -/
theorem C4_validate_input_amended_witness :
    validate_input (.vdict [("context", .vdict exCtxNoTopic)]) =
        .ok (false, some "Missing required field in context: topic") ∧
      validate_input (.vdict [("context", .vdict exCtxValid)]) =
        .ok (true, none) :=
  ⟨(C4_validate_input_amended.1 [("context", .vdict exCtxNoTopic)]
      exCtxNoTopic "topic" rfl rfl).2.2,
   C4_validate_input_amended.2.2 [("context", .vdict exCtxValid)]
      exCtxValid [("name", .vstr (str "Bo")), ("type", .vstr (str "bear"))]
      (str "space") (str "friendship") (str "forest") (str "sharing")
      rfl rfl (by decide) rfl (by decide) rfl rfl rfl rfl (by decide)
      rfl (by decide) rfl (Or.inl rfl) (Or.inl rfl)⟩

/-! ## Embedding of `src/agents/video_assembler.py` -/

/-- Python `[img for img in scene_images if img and Path(img).exists()]`: image
paths are `List Char`, Python truthiness of a path is non-emptiness, and the
filesystem is abstracted by the predicate `fileExists`. -/
def validImages (scene_images : List (List Char))
    (fileExists : List Char → Bool) : List (List Char) :=
  scene_images.filter (fun p => !p.isEmpty && fileExists p)

/-- Embeds the list-alignment prelude of `VideoAssemblyAgent.assemble_video`
(src/agents/video_assembler.py, lines 334–375): drop absent images, return
`none` (assembly aborts) when no valid image remains, and when the segment
and image counts differ truncate both lists to the minimum length. -/
def assembleAlignment (script_segments : List SceneSegment)
    (scene_images : List (List Char)) (fileExists : List Char → Bool) :
    Option (List SceneSegment × List (List Char)) :=
  let valid_images := validImages scene_images fileExists
  if valid_images.isEmpty then none
  else if script_segments.length ≠ valid_images.length then
    let min_length := min script_segments.length valid_images.length
    some (script_segments.take min_length, valid_images.take min_length)
  else some (script_segments, valid_images)

/-- C5: when the segment count differs from the count of existing images and
at least one valid image remains, `assemble_video` proceeds on the two lists
truncated to the common minimum length, in their original order. -/
theorem C5_assemble_video_truncates (segs : List SceneSegment)
    (imgs : List (List Char)) (fx : List Char → Bool)
    (hne : validImages imgs fx ≠ [])
    (hdiff : segs.length ≠ (validImages imgs fx).length) :
    assembleAlignment segs imgs fx =
        some (segs.take (min segs.length (validImages imgs fx).length),
          (validImages imgs fx).take
            (min segs.length (validImages imgs fx).length)) ∧
      (segs.take (min segs.length (validImages imgs fx).length)).length
          = min segs.length (validImages imgs fx).length ∧
      ((validImages imgs fx).take
          (min segs.length (validImages imgs fx).length)).length
          = min segs.length (validImages imgs fx).length := by
  have hempty : (validImages imgs fx).isEmpty = false := by
    simp [List.isEmpty_iff, hne]
  refine ⟨?_, ?_, ?_⟩
  · simp only [assembleAlignment, hempty, Bool.false_eq_true, if_false]
    rw [if_pos hdiff]
  · rw [List.length_take]
    exact min_eq_left (min_le_left _ _)
  · rw [List.length_take]
    exact min_eq_left (min_le_right _ _)

/-- Ten scene images of which seven are valid (the second entry is an empty
path, hence falsy in Python, and two trailing entries do not exist). -/
def wImgs : List (List Char) :=
  [str "s1.png", str "", str "s2.png", str "s3.png", str "s4.png",
   str "s5.png", str "s6.png", str "s7.png", str "gone1.png", str "gone2.png"]

/-- Existence predicate for `wImgs`: everything but the `gone*` files. -/
def wExists (p : List Char) : Bool :=
  !(p = str "gone1.png" : Bool) && !(p = str "gone2.png" : Bool)

/-- C5 (witness): 10 segments and 7 existing images — the assembly pairs
exactly the first 7 segments with the 7 surviving images. -/
theorem C5_assemble_video_truncates_witness :
    assembleAlignment (List.replicate 10 (mkSeg 5)) wImgs wExists =
      some ((List.replicate 10 (mkSeg 5)).take
          (min (List.replicate 10 (mkSeg 5)).length
            (validImages wImgs wExists).length),
        (validImages wImgs wExists).take
          (min (List.replicate 10 (mkSeg 5)).length
            (validImages wImgs wExists).length)) :=
  (C5_assemble_video_truncates (List.replicate 10 (mkSeg 5)) wImgs wExists
    (by decide) (by decide)).1

/-! ## Embedding of `src/utils/checkpoint_manager.py`

The on-disk set of `checkpoint_*.json` files for one workflow id is modelled
as the list of their timestamps, kept sorted newest-first — the order
`list_checkpoints` imposes before `_cleanup_old_checkpoints` prunes.  The
per-save `latest_checkpoint.json` copy is a single extra file outside this
set and is not counted. -/

/-- Insert into a descending list (insertion-sort step). -/
def insertDesc (x : ℕ) : List ℕ → List ℕ
  | [] => [x]
  | y :: ys => if y ≤ x then x :: y :: ys else y :: insertDesc x ys

/-- Sort newest-first, as `list_checkpoints` does via
`checkpoints.sort(key=..., reverse=True)`. -/
def sortDesc : List ℕ → List ℕ
  | [] => []
  | x :: xs => insertDesc x (sortDesc xs)

/-- Embeds `CheckpointManager.save_checkpoint` followed by
`_cleanup_old_checkpoints` (src/utils/checkpoint_manager.py, lines 28–81 and
210–226): write the new checkpoint, then keep only the `retention_count`
most recent by timestamp. -/
def save_checkpoint (retention : ℕ) (st : List ℕ) (t : ℕ) : List ℕ :=
  (sortDesc (t :: st)).take retention

/-- A run of sequential saves starting from an empty checkpoint directory. -/
def save_checkpoints_from_empty (retention : ℕ) (ts : List ℕ) : List ℕ :=
  ts.foldl (save_checkpoint retention) []

lemma insertDesc_of_le {x : ℕ} {l : List ℕ} (h : ∀ y ∈ l, y ≤ x) :
    insertDesc x l = x :: l := by
  cases l with
  | nil => rfl
  | cons y ys =>
    rw [insertDesc, if_pos (h y (List.mem_cons_self _ _))]

lemma sortDesc_of_sorted : ∀ {l : List ℕ}, l.Sorted (· ≥ ·) → sortDesc l = l
  | [], _ => rfl
  | x :: xs, h => by
    rw [sortDesc, sortDesc_of_sorted (List.Sorted.of_cons h)]
    exact insertDesc_of_le fun y hy => List.rel_of_sorted_cons h y hy

lemma save_checkpoints_from_empty_eq :
    ∀ {ts : List ℕ}, ts.Sorted (· < ·) →
      save_checkpoints_from_empty 10 ts = ts.reverse.take 10 := by
  intro ts
  induction ts using List.reverseRecOn with
  | nil => intro _; rfl
  | append_singleton ts t ih =>
    intro h
    obtain ⟨hts, -, hlt⟩ := List.pairwise_append.mp h
    have hstate := ih hts
    have hmem : ∀ y ∈ ts.reverse.take 10, y ≤ t := by
      intro y hy
      have hyts : y ∈ ts := by
        have := List.mem_of_mem_take hy
        exact List.mem_reverse.mp this
      exact le_of_lt (hlt y hyts t (List.mem_singleton_self t))
    have hsorted : (ts.reverse.take 10).Sorted (· ≥ ·) := by
      have h1 : ts.reverse.Pairwise (fun a b => a > b) :=
        List.pairwise_reverse.mpr (hts.imp fun {a b} hab => hab)
      have h2 : ts.reverse.Sorted (· ≥ ·) := h1.imp fun {a b} hab => le_of_lt hab
      exact h2.sublist (List.take_sublist _ _)
    rw [save_checkpoints_from_empty, List.foldl_append, List.foldl_cons,
      List.foldl_nil]
    show save_checkpoint 10 (save_checkpoints_from_empty 10 ts) t
      = (ts ++ [t]).reverse.take 10
    rw [hstate, save_checkpoint, sortDesc, sortDesc_of_sorted hsorted,
      insertDesc_of_le hmem, List.reverse_append]
    simp only [List.reverse_singleton, List.singleton_append, List.take_succ_cons,
      List.take_take]
    norm_num

/-- C6: saving 12 sequential checkpoints (strictly increasing timestamps)
with retention 10 leaves exactly the 10 most recent checkpoints on disk —
the two oldest are pruned. -/
theorem C6_checkpoint_retention (ts : List ℕ) (h : ts.Sorted (· < ·))
    (hlen : ts.length = 12) :
    save_checkpoints_from_empty 10 ts = ts.reverse.take 10 ∧
      (save_checkpoints_from_empty 10 ts).length = 10 := by
  refine ⟨save_checkpoints_from_empty_eq h, ?_⟩
  rw [save_checkpoints_from_empty_eq h, List.length_take, List.length_reverse,
    hlen]
  exact min_eq_left (by norm_num)

/-- C6 (witness): twelve concrete saves at timestamps 1..12 leave the ten
checkpoints 3..12. -/
theorem C6_checkpoint_retention_witness :
    save_checkpoints_from_empty 10 [1, 2, 3, 4, 5, 6, 7, 8, 9, 10, 11, 12]
        = [12, 11, 10, 9, 8, 7, 6, 5, 4, 3] ∧
      (save_checkpoints_from_empty 10
        [1, 2, 3, 4, 5, 6, 7, 8, 9, 10, 11, 12]).length = 10 := by
  have h := C6_checkpoint_retention [1, 2, 3, 4, 5, 6, 7, 8, 9, 10, 11, 12]
    (by decide) (by decide)
  exact ⟨h.1.trans (by decide), h.2⟩

/-! ## Embedding of `src/tools/audio_tool.py`

`AudioTool.generate_gtts_narration` (lines 155–227) loops `attempt` from 1
to 5.  The environment is abstracted by an oracle giving each attempt's
outcome: either the `try` body raises (gTTS error, or a failure while
padding), or `tts.save` completes leaving a file with a given existence flag
and size.  The embedding records how many attempts ran, the `time.sleep`
durations performed between attempts, and the final result (`.ok i` when
attempt `i` returned the path, `.error` when the loop raised). -/

/-- Outcome of one iteration's `try` body. -/
inductive GttsAttempt where
  | raises (msg : String)
  | saved (fileOnDisk : Bool) (size : ℕ)

/-- Whether an attempt outcome passes the `output_path.exists() and
output_path.stat().st_size > 0` acceptance check. -/
def attemptOk : GttsAttempt → Bool
  | .saved ex sz => ex && decide (0 < sz)
  | .raises _ => false

/-- Observable result of a `generate_gtts_narration` run. -/
structure GttsOutcome where
  attemptsMade : ℕ
  sleeps : List ℕ
  result : Except String ℕ

/-- The retry loop of `generate_gtts_narration`, by remaining attempts:
accept when the saved file exists and is non-empty; otherwise sleep 5 s and
retry, or raise when this was the last attempt. -/
def gttsAux (oracle : ℕ → GttsAttempt) : ℕ → ℕ → GttsOutcome
  | _, 0 => ⟨0, [], .error "unreachable: the loop always runs an attempt"⟩
  | attempt, r + 1 =>
    match oracle attempt with
    | .saved ex sz =>
      if ex ∧ 0 < sz then ⟨1, [], .ok attempt⟩
      else if r = 0 then
        ⟨1, [], .error "Failed to generate gTTS narration after 5 attempts: gTTS created an empty file"⟩
      else
        let rest := gttsAux oracle (attempt + 1) r
        ⟨rest.attemptsMade + 1, 5 :: rest.sleeps, rest.result⟩
    | .raises msg =>
      if r = 0 then
        ⟨1, [], .error ("Failed to generate gTTS narration after 5 attempts: " ++ msg)⟩
      else
        let rest := gttsAux oracle (attempt + 1) r
        ⟨rest.attemptsMade + 1, 5 :: rest.sleeps, rest.result⟩

/-- Embeds `generate_gtts_narration`: `max_retries = 5`, attempts numbered from 1. -/
def generate_gtts_narration (oracle : ℕ → GttsAttempt) : GttsOutcome :=
  gttsAux oracle 1 5

lemma gttsAux_attempts_pos (oracle : ℕ → GttsAttempt) (a r : ℕ)
    (h : 0 < r) : 0 < (gttsAux oracle a r).attemptsMade := by
  cases r with
  | zero => omega
  | succ r =>
    cases horacle : oracle a with
    | saved ex sz =>
      simp only [gttsAux, horacle]
      split_ifs <;> simp
    | raises m =>
      simp only [gttsAux, horacle]
      split_ifs <;> simp

lemma gttsAux_attempts_le (oracle : ℕ → GttsAttempt) :
    ∀ (r a : ℕ), (gttsAux oracle a r).attemptsMade ≤ r := by
  intro r
  induction r with
  | zero => intro a; exact le_refl 0
  | succ r ih =>
    intro a
    cases horacle : oracle a with
    | saved ex sz =>
      simp only [gttsAux, horacle]
      split_ifs
      · show 1 ≤ r + 1
        omega
      · show 1 ≤ r + 1
        omega
      · show (gttsAux oracle (a + 1) r).attemptsMade + 1 ≤ r + 1
        exact Nat.succ_le_succ (ih (a + 1))
    | raises msg =>
      simp only [gttsAux, horacle]
      split_ifs
      · show 1 ≤ r + 1
        omega
      · show (gttsAux oracle (a + 1) r).attemptsMade + 1 ≤ r + 1
        exact Nat.succ_le_succ (ih (a + 1))

lemma gttsAux_sleeps (oracle : ℕ → GttsAttempt) :
    ∀ (r a : ℕ), (gttsAux oracle a r).sleeps.length
        = (gttsAux oracle a r).attemptsMade - 1 ∧
      ∀ s ∈ (gttsAux oracle a r).sleeps, s = 5 := by
  intro r
  induction r with
  | zero =>
    intro a
    exact ⟨rfl, by intro s hs; simp [gttsAux] at hs⟩
  | succ r ih =>
    intro a
    cases horacle : oracle a with
    | saved ex sz =>
      simp only [gttsAux, horacle]
      split_ifs with hok hr
      · exact ⟨rfl, by intro s hs; simp at hs⟩
      · exact ⟨rfl, by intro s hs; simp at hs⟩
      · constructor
        · show (5 :: (gttsAux oracle (a + 1) r).sleeps).length
            = (gttsAux oracle (a + 1) r).attemptsMade + 1 - 1
          rw [List.length_cons, (ih (a + 1)).1]
          have hpos := gttsAux_attempts_pos oracle (a + 1) r
            (Nat.pos_of_ne_zero hr)
          omega
        · intro s hs
          rcases List.mem_cons.mp hs with rfl | hs'
          · rfl
          · exact (ih (a + 1)).2 s hs'
    | raises msg =>
      simp only [gttsAux, horacle]
      split_ifs with hr
      · exact ⟨rfl, by intro s hs; simp at hs⟩
      · constructor
        · show (5 :: (gttsAux oracle (a + 1) r).sleeps).length
            = (gttsAux oracle (a + 1) r).attemptsMade + 1 - 1
          rw [List.length_cons, (ih (a + 1)).1]
          have hpos := gttsAux_attempts_pos oracle (a + 1) r
            (Nat.pos_of_ne_zero hr)
          omega
        · intro s hs
          rcases List.mem_cons.mp hs with rfl | hs'
          · rfl
          · exact (ih (a + 1)).2 s hs'

lemma gttsAux_ok (oracle : ℕ → GttsAttempt) :
    ∀ (r a i : ℕ), (gttsAux oracle a r).result = .ok i →
      ∃ sz, oracle i = .saved true sz ∧ 0 < sz := by
  intro r
  induction r with
  | zero =>
    intro a i h
    exact absurd h (by simp [gttsAux])
  | succ r ih =>
    intro a i h
    cases horacle : oracle a with
    | saved ex sz =>
      simp only [gttsAux, horacle] at h
      split_ifs at h with hok hr
      · have hai : a = i := by simpa using h
        subst hai
        exact ⟨sz, by rw [horacle, hok.1], hok.2⟩
      · exact ih (a + 1) i h
    | raises msg =>
      simp only [gttsAux, horacle] at h
      split_ifs at h with hr
      exact ih (a + 1) i h

lemma gttsAux_error (oracle : ℕ → GttsAttempt) :
    ∀ (r a : ℕ), 0 < r →
      (∀ i, a ≤ i → i < a + r → attemptOk (oracle i) = false) →
      ∃ msg, (gttsAux oracle a r).result = .error msg := by
  intro r
  induction r with
  | zero =>
    intro a h0
    exact absurd h0 (by omega)
  | succ r ih =>
    intro a _ hfail
    have hfa : attemptOk (oracle a) = false := hfail a (le_refl a) (by omega)
    cases horacle : oracle a with
    | saved ex sz =>
      rw [horacle] at hfa
      have hnot : ¬(ex = true ∧ 0 < sz) := by
        simp only [attemptOk, Bool.and_eq_false_iff] at hfa
        rcases hfa with hfa | hfa
        · rintro ⟨h1, -⟩
          rw [h1] at hfa
          cases hfa
        · rintro ⟨-, h2⟩
          rw [decide_eq_false_iff_not] at hfa
          exact hfa h2
      simp only [gttsAux, horacle]
      rw [if_neg hnot]
      split_ifs with hr
      · exact ⟨_, rfl⟩
      · rcases ih (a + 1) (Nat.pos_of_ne_zero hr)
          (fun i h1 h2 => hfail i (by omega) (by omega)) with ⟨msg, hmsg⟩
        exact ⟨msg, hmsg⟩
    | raises m =>
      simp only [gttsAux, horacle]
      split_ifs with hr
      · exact ⟨_, rfl⟩
      · rcases ih (a + 1) (Nat.pos_of_ne_zero hr)
          (fun i h1 h2 => hfail i (by omega) (by omega)) with ⟨msg, hmsg⟩
        exact ⟨msg, hmsg⟩

/-- C7: the free-TTS retry loop makes at most 5 attempts; every recorded
delay between consecutive attempts is exactly 5 seconds and there is one
fewer delay than attempts; a path is returned only when that attempt left an
existing, non-empty file; and when all 5 attempts fail the run raises. -/
theorem C7_gtts_retry_discipline (oracle : ℕ → GttsAttempt) :
    (generate_gtts_narration oracle).attemptsMade ≤ 5 ∧
      ((generate_gtts_narration oracle).sleeps.length
          = (generate_gtts_narration oracle).attemptsMade - 1 ∧
        ∀ s ∈ (generate_gtts_narration oracle).sleeps, s = 5) ∧
      (∀ i, (generate_gtts_narration oracle).result = .ok i →
        ∃ sz, oracle i = .saved true sz ∧ 0 < sz) ∧
      ((∀ i, 1 ≤ i → i < 6 → attemptOk (oracle i) = false) →
        ∃ msg, (generate_gtts_narration oracle).result = .error msg) :=
  ⟨gttsAux_attempts_le oracle 5 1,
   gttsAux_sleeps oracle 5 1,
   fun i h => gttsAux_ok oracle 5 1 i h,
   fun hfail => gttsAux_error oracle 5 1 (by omega) hfail⟩

/-- C7 (witness): an always-failing oracle raises; an immediately succeeding
oracle is accepted only with its non-empty file. -/
theorem C7_gtts_retry_discipline_witness :
    (∃ msg, (generate_gtts_narration (fun _ => .raises "boom")).result
        = .error msg) ∧
      ∃ sz, (fun _ => GttsAttempt.saved true 10) 1 = GttsAttempt.saved true sz
        ∧ 0 < sz :=
  ⟨(C7_gtts_retry_discipline (fun _ => .raises "boom")).2.2.2
      (fun _ _ _ => rfl),
   (C7_gtts_retry_discipline (fun _ => .saved true 10)).2.2.1 1 rfl⟩

/-! ## Embedding of `src/tools/image_gen_tool.py` -/

/-- The base `enhancements` list of `_enhance_prompt`. -/
def baseEnhancements : List (List Char) :=
  [str "child-friendly", str "cartoon style", str "bright and colorful",
   str "safe for children", str "wholesome"]

/-- The enhancement tags after the optional style append (`if style: ...
elif self.config.image_gen.style: ...`); Python falsiness of `None` and `""`
is the empty list. -/
def enhancementsFor (style configStyle : List Char) : List (List Char) :=
  baseEnhancements ++
    (if style ≠ [] then [style]
     else if configStyle ≠ [] then [configStyle] else [])

/-- Python `", ".join(l)`. -/
def joinComma (l : List (List Char)) : List Char :=
  List.intercalate (str ", ") l

/-- Embeds `ImageGenerationTool._enhance_prompt`
(src/tools/image_gen_tool.py, lines 480–514): append the enhancement tags and
a quality suffix; if the result exceeds 4000 characters, fall back to the
first 3500 characters of the raw prompt plus the first three tags. -/
def enhance_prompt (prompt style configStyle : List Char) : List Char :=
  let enhancements := enhancementsFor style configStyle
  let enhanced := prompt ++ str ", " ++ joinComma enhancements
    ++ str ", high quality, detailed"
  if 4000 < enhanced.length then
    prompt.take 3500 ++ str ", " ++ joinComma (enhancements.take 3)
  else enhanced

lemma enhancementsFor_take_three (style configStyle : List Char) :
    (enhancementsFor style configStyle).take 3 = baseEnhancements.take 3 := by
  rw [enhancementsFor, List.take_append_eq_append_take]
  norm_num [baseEnhancements]

lemma enhance_prompt_overflow_eq (prompt style configStyle : List Char)
    (h : 4000 < (prompt ++ str ", " ++ joinComma (enhancementsFor style configStyle)
      ++ str ", high quality, detailed").length) :
    enhance_prompt prompt style configStyle =
      prompt.take 3500 ++ str ", "
        ++ joinComma ((enhancementsFor style configStyle).take 3) := by
  simp only [enhance_prompt]
  rw [if_pos h]

lemma replicate4000_overflows :
    4000 < (List.replicate 4000 'a' ++ str ", "
      ++ joinComma (enhancementsFor [] [])
      ++ str ", high quality, detailed").length := by
  have e1 : (str ", ").length = 2 := by decide
  have e2 : (joinComma (enhancementsFor [] [])).length = 80 := by decide
  have e3 : (str ", high quality, detailed").length = 24 := by decide
  simp only [List.length_append, List.length_replicate, e1, e2, e3]
  norm_num

/-- C8 (counterexample): a 4000-character prompt overflows the limit and is
truncated, but the result is 3552 characters long — more than the claimed
3503-character bound. -/
theorem C8_enhance_prompt_counterexample :
    (enhance_prompt (List.replicate 4000 'a') [] []).length = 3552 ∧
      ¬ (enhance_prompt (List.replicate 4000 'a') [] []).length ≤ 3503 := by
  have hlen : (enhance_prompt (List.replicate 4000 'a') [] []).length = 3552 := by
    rw [enhance_prompt_overflow_eq _ _ _ replicate4000_overflows,
      enhancementsFor_take_three]
    have e1 : (str ", ").length = 2 := by decide
    have e2 : (joinComma (baseEnhancements.take 3)).length = 50 := by decide
    simp only [List.length_append, List.length_take, List.length_replicate,
      e1, e2]
    omega
  exact ⟨hlen, by rw [hlen]; omega⟩

/-- C8 (amended): whenever the enhanced prompt would exceed 4000 characters,
`_enhance_prompt` returns the first 3500 characters of the raw prompt,
followed by `", "` and the first three comma-joined enhancement tags — at
most 3552 characters in total (3500 + 2 + 50). -/
theorem C8_enhance_prompt_truncates (prompt style configStyle : List Char)
    (h : 4000 < (prompt ++ str ", " ++ joinComma (enhancementsFor style configStyle)
      ++ str ", high quality, detailed").length) :
    enhance_prompt prompt style configStyle =
        prompt.take 3500 ++ str ", "
          ++ joinComma ((enhancementsFor style configStyle).take 3) ∧
      (enhance_prompt prompt style configStyle).length ≤ 3552 := by
  have heq := enhance_prompt_overflow_eq prompt style configStyle h
  refine ⟨heq, ?_⟩
  rw [heq, enhancementsFor_take_three]
  simp only [List.length_append, List.length_take]
  have h1 : min 3500 prompt.length ≤ 3500 := min_le_left _ _
  have h2 : (str ", ").length = 2 := by decide
  have h3 : (joinComma (baseEnhancements.take 3)).length = 50 := by decide
  omega

/-- C8 (witness): the amended statement at the 4000-character prompt. -/
theorem C8_enhance_prompt_truncates_witness :
    enhance_prompt (List.replicate 4000 'a') [] [] =
      (List.replicate 4000 'a').take 3500 ++ str ", "
        ++ joinComma ((enhancementsFor [] []).take 3) :=
  (C8_enhance_prompt_truncates (List.replicate 4000 'a') [] []
    replicate4000_overflows).1

/-! ## Embedding of `src/utils/helpers.py` -/

/-- Values of `config.image_gen.quality`. -/
inductive ImageQuality where
  | standard
  | hd
  deriving DecidableEq

/-- Values of `config.tts.provider`. -/
inductive TtsProvider where
  | gtts
  | elevenlabs
  deriving DecidableEq

/-- The cost-breakdown dictionary returned by `estimate_cost`. -/
structure CostBreakdown where
  llm_tokens : ℚ
  image_generation : ℚ
  web_search : ℚ
  text_to_speech : ℚ
  total : ℚ
  deriving DecidableEq

/-- The `token_cost`: `int(num_tokens * 0.7)` input and `int(num_tokens * 0.3)`
output tokens (the truncations are embedded by natural-number division) at
$0.03 / 1K and $0.06 / 1K. -/
def tokenCost (num_tokens : ℕ) : ℚ :=
  (num_tokens * 7 / 10 : ℕ) * (3 / 100000) + (num_tokens * 3 / 10 : ℕ) * (6 / 100000)

/-- The `image_cost`: $0.080 per HD image, $0.040 per standard image, 0 when no
image is requested. -/
def imageCost (quality : ImageQuality) (num_images : ℕ) : ℚ :=
  if 0 < num_images then
    (if quality = .hd then num_images * (80 / 1000) else num_images * (40 / 1000))
  else 0

/-- The `search_cost`: $0.001 per Tavily search. -/
def searchCost (num_searches : ℕ) : ℚ := num_searches * (1 / 1000)

/-- The `tts_cost`: $0.30 per estimated 1000 characters for ElevenLabs, free for
gTTS, 0 when TTS is off. -/
def ttsCost (provider : TtsProvider) (use_tts : Bool) : ℚ :=
  if use_tts then
    (if provider = .elevenlabs then (1000 / 1000 : ℚ) * (30 / 100) else 0)
  else 0

/-- Embeds `estimate_cost` (src/utils/helpers.py, lines 97–162) with the two
relevant configuration knobs (`config.image_gen.quality`,
`config.tts.provider`) as explicit parameters; money amounts are exact
rationals. -/
def estimate_cost (quality : ImageQuality) (provider : TtsProvider)
    (num_images num_tokens num_searches : ℕ) (use_tts : Bool) :
    CostBreakdown :=
  { llm_tokens := tokenCost num_tokens,
    image_generation := imageCost quality num_images,
    web_search := searchCost num_searches,
    text_to_speech := ttsCost provider use_tts,
    total := tokenCost num_tokens + imageCost quality num_images
      + searchCost num_searches + ttsCost provider use_tts }

/-- C9 (counterexample): raising `num_tokens` from 0 to 1 leaves both the
token cost and the total at 0 (the `int(...)` truncations floor 0.7 and 0.3
to zero tokens), and enabling TTS under the free gTTS provider leaves the
TTS cost and the total at 0 — neither increase is strict. -/
theorem C9_estimate_cost_counterexample :
    (estimate_cost .standard .gtts 0 1 0 false).llm_tokens = 0 ∧
      (estimate_cost .standard .gtts 0 1 0 false).total = 0 ∧
      (estimate_cost .standard .gtts 0 0 0 true).text_to_speech = 0 ∧
      (estimate_cost .standard .gtts 0 0 0 true).total = 0 := by
  refine ⟨?_, ?_, ?_, ?_⟩ <;>
    norm_num [estimate_cost, tokenCost, imageCost, searchCost, ttsCost] <;>
    decide


lemma ite_mul_lt {i i' : ℕ} (c : ℚ) (hc : 0 < c) (h : i < i') :
    (if 0 < i then (i : ℚ) * c else 0) < (if 0 < i' then (i' : ℚ) * c else 0) := by
  have hi' : 0 < i' := lt_of_le_of_lt (Nat.zero_le i) h
  rw [if_pos hi']
  by_cases hi : 0 < i
  · rw [if_pos hi]
    exact mul_lt_mul_of_pos_right (by exact_mod_cast h) hc
  · rw [if_neg hi]
    exact mul_pos (by exact_mod_cast hi') hc

lemma imageCost_lt (q : ImageQuality) {i i' : ℕ} (h : i < i') :
    imageCost q i < imageCost q i' := by
  cases q with
  | standard =>
    have := ite_mul_lt (40 / 1000 : ℚ) (by norm_num) h
    simpa [imageCost] using this
  | hd =>
    have := ite_mul_lt (80 / 1000 : ℚ) (by norm_num) h
    simpa [imageCost] using this

lemma searchCost_lt {s s' : ℕ} (h : s < s') : searchCost s < searchCost s' := by
  unfold searchCost
  exact mul_lt_mul_of_pos_right (by exact_mod_cast h) (by norm_num)

lemma tokenCost_mono {t t' : ℕ} (h : t ≤ t') : tokenCost t ≤ tokenCost t' := by
  unfold tokenCost
  have h1 : ((t * 7 / 10 : ℕ) : ℚ) ≤ ((t' * 7 / 10 : ℕ) : ℚ) := by
    exact_mod_cast Nat.div_le_div_right (Nat.mul_le_mul_right _ h)
  have h2 : ((t * 3 / 10 : ℕ) : ℚ) ≤ ((t' * 3 / 10 : ℕ) : ℚ) := by
    exact_mod_cast Nat.div_le_div_right (Nat.mul_le_mul_right _ h)
  have g1 : ((t * 7 / 10 : ℕ) : ℚ) * (3 / 100000)
      ≤ ((t' * 7 / 10 : ℕ) : ℚ) * (3 / 100000) :=
    mul_le_mul_of_nonneg_right h1 (by norm_num)
  have g2 : ((t * 3 / 10 : ℕ) : ℚ) * (6 / 100000)
      ≤ ((t' * 3 / 10 : ℕ) : ℚ) * (6 / 100000) :=
    mul_le_mul_of_nonneg_right h2 (by norm_num)
  exact add_le_add g1 g2

/-- C9 (amended): the all-zero call costs 0 in total; increasing the image
count or the search count strictly increases the corresponding field and the
total; increasing the token count increases the token cost and the total only
weakly (the `int(...)` truncations can absorb small increases, e.g. 0 → 1
tokens); and enabling TTS adds exactly $0.30 under ElevenLabs but changes
nothing under the free gTTS provider. -/
theorem C9_estimate_cost_amended :
    (∀ (q : ImageQuality) (p : TtsProvider),
        (estimate_cost q p 0 0 0 false).total = 0) ∧
      (∀ (q : ImageQuality) (p : TtsProvider) (i i' t s : ℕ) (u : Bool),
        i < i' →
        (estimate_cost q p i t s u).image_generation
            < (estimate_cost q p i' t s u).image_generation ∧
          (estimate_cost q p i t s u).total
            < (estimate_cost q p i' t s u).total) ∧
      (∀ (q : ImageQuality) (p : TtsProvider) (i t s s' : ℕ) (u : Bool),
        s < s' →
        (estimate_cost q p i t s u).web_search
            < (estimate_cost q p i t s' u).web_search ∧
          (estimate_cost q p i t s u).total
            < (estimate_cost q p i t s' u).total) ∧
      (∀ (q : ImageQuality) (p : TtsProvider) (i t t' s : ℕ) (u : Bool),
        t ≤ t' →
        (estimate_cost q p i t s u).llm_tokens
            ≤ (estimate_cost q p i t' s u).llm_tokens ∧
          (estimate_cost q p i t s u).total
            ≤ (estimate_cost q p i t' s u).total) ∧
      (∀ (q : ImageQuality) (i t s : ℕ),
        (estimate_cost q .elevenlabs i t s true).text_to_speech = 30 / 100 ∧
          (estimate_cost q .elevenlabs i t s false).text_to_speech = 0 ∧
          (estimate_cost q .elevenlabs i t s true).total
            = (estimate_cost q .elevenlabs i t s false).total + 30 / 100) ∧
      (∀ (q : ImageQuality) (i t s : ℕ),
        estimate_cost q .gtts i t s true = estimate_cost q .gtts i t s false) := by
  refine ⟨?_, ?_, ?_, ?_, ?_, ?_⟩
  · intro q p
    norm_num [estimate_cost, tokenCost, imageCost, searchCost, ttsCost]
  · intro q p i i' t s u h
    have himg := imageCost_lt q h
    exact ⟨himg, by simp only [estimate_cost]; linarith⟩
  · intro q p i t s s' u h
    have hsearch := searchCost_lt h
    exact ⟨hsearch, by simp only [estimate_cost]; linarith⟩
  · intro q p i t t' s u h
    have htok := tokenCost_mono h
    exact ⟨htok, by simp only [estimate_cost]; linarith⟩
  · intro q i t s
    refine ⟨?_, ?_, ?_⟩
    · norm_num [estimate_cost, ttsCost]
    · norm_num [estimate_cost, ttsCost]
    · simp only [estimate_cost]
      norm_num [ttsCost]
  · intro q i t s
    simp [estimate_cost, ttsCost]

/-- C9 (witness): the amended statement at concrete inputs — one more image
raises the image cost and total, one more search raises the search cost and
total, and one more token leaves the token cost weakly larger. -/
theorem C9_estimate_cost_amended_witness :
    ((estimate_cost .standard .gtts 0 5 3 false).image_generation
        < (estimate_cost .standard .gtts 1 5 3 false).image_generation ∧
      (estimate_cost .standard .gtts 0 5 3 false).total
        < (estimate_cost .standard .gtts 1 5 3 false).total) ∧
      ((estimate_cost .standard .gtts 0 5 3 false).web_search
          < (estimate_cost .standard .gtts 0 5 4 false).web_search ∧
        (estimate_cost .standard .gtts 0 5 3 false).total
          < (estimate_cost .standard .gtts 0 5 4 false).total) ∧
      ((estimate_cost .standard .gtts 0 0 0 false).llm_tokens
          ≤ (estimate_cost .standard .gtts 0 1 0 false).llm_tokens ∧
        (estimate_cost .standard .gtts 0 0 0 false).total
          ≤ (estimate_cost .standard .gtts 0 1 0 false).total) :=
  ⟨C9_estimate_cost_amended.2.1 .standard .gtts 0 1 5 3 false (by norm_num),
   C9_estimate_cost_amended.2.2.1 .standard .gtts 0 5 3 4 false (by norm_num),
   C9_estimate_cost_amended.2.2.2.1 .standard .gtts 0 0 1 0 false (by norm_num)⟩

end Animation
